import Mathlib

/-!
# NIfTI reader / writer (`imgNIFTI.h`, `imgNIFTI.cpp`, `testImgGen.cpp`)

A shallow embedding of `i3d::NIFTIReader`, `i3d::NIFTIWriter` and the driver
`TestAndCopy`.  Objects are records, member functions take the object as an
explicit argument and return the object after the call, the file system is an
association list from paths to stored containers, and raw memory is a list of
bytes.  C `int` values are integers taken in `[-2^31, 2^31)`, `size_t` values
are naturals taken below `2^64`; arithmetic wraps explicitly.
-/

namespace i3d

/-! ## Machine arithmetic -/

/-- One byte of raw memory. -/
abbrev Byte := Fin 256

/-- Result of a C `int` operation: the mathematical value wrapped into the
32-bit two's complement range `[-2^31, 2^31)`. -/
def wrapInt (x : Int) : Int := (x + 2 ^ 31) % 2 ^ 32 - 2 ^ 31

/-- C `int * int`. -/
def mulInt (a b : Int) : Int := wrapInt (a * b)

/-- Conversion of a C `int` to `size_t` (value modulo `2^64`). -/
def toSizeT (x : Int) : Nat := (x % 2 ^ 64).toNat

/-- C `size_t * size_t`. -/
def mulSizeT (a b : Nat) : Nat := (a * b) % 2 ^ 64

/-! ## Pixel types -/

/-- The pixel types `LoadData` and `WriteImageData` are instantiated for
(`INSTANTIATE_LOAD`, `INSTANTIATE_WRITE`). -/
inductive PixelType where
  | bool | GRAY8 | GRAY16 | RGB | RGB16
  | int8_t | int16_t | int32_t | uint32_t
  | float | double | complex_float
  deriving DecidableEq

/-- Modelled from the spec: `sizeof(T)` of each supported pixel type; `GRAY8`, `GRAY16`,
`RGB`, `RGB16` come from `i3d/image3d.h` (8-bit gray, 16-bit gray, 3-channel
8-bit colour, 3-channel 16-bit colour). -/
def PixelType.sizeof : PixelType → Nat
  | .bool => 1 | .GRAY8 => 1 | .GRAY16 => 2 | .RGB => 3 | .RGB16 => 6
  | .int8_t => 1 | .int16_t => 2 | .int32_t => 4 | .uint32_t => 4
  | .float => 4 | .double => 8 | .complex_float => 8

/-! ## Data model -/

/-- Metadata record `Image3dInfo` (all fields are C `int`). -/
structure Image3dInfo where
  width : Int
  height : Int
  depth : Int
  datatype : Int
  bytesPerVoxel : Int
  deriving DecidableEq

/-- Modelled from the spec: the container handle `nifti_image` of `nifti1_io.h`
(header fields plus an optional raw byte buffer).  `data = none` is the null
pointer.  `fname` and `compress` hold what `nifti_set_filenames` associated
with the container. -/
structure nifti_image where
  ndim : Int
  nx : Int
  ny : Int
  nz : Int
  nt : Int
  nu : Int
  nv : Int
  nw : Int
  dim : List Int
  nvox : Nat
  nbyper : Int
  datatype : Int
  data : Option (List Byte)
  fname : Option String
  compress : Bool
  deriving DecidableEq

/-- Files on disk: path and stored container, newest first. -/
abbrev Disk := List (String × nifti_image)

/-- Ways a memory access leaves defined behaviour. -/
inductive Fault where
  | read_overrun
  | write_overrun
  | null_deref
  deriving DecidableEq

/-- How a call ends: normal return, a thrown `std::exception` with its
`what()` text, or undefined behaviour. -/
inductive Status where
  | ok
  | thrown (what : String)
  | undefined (fault : Fault)
  deriving DecidableEq

/-- Allocator and raw-copy calls made by a member function, with their size
argument. -/
inductive MemCall where
  | malloc (size : Nat)
  | memcpy (count : Nat)
  deriving DecidableEq

/-! ## External collaborators -/

/-- Modelled from the spec: the zero-initializing header constructor
`nifti_simple_init_nim` of the volumetric file library. -/
def nifti_simple_init_nim : nifti_image :=
  { ndim := 0, nx := 0, ny := 0, nz := 0, nt := 0, nu := 0, nv := 0, nw := 0,
    dim := List.replicate 8 0, nvox := 0, nbyper := 0, datatype := 0,
    data := none, fname := none, compress := false }

/-- Modelled from the spec: the filename/compression-association setter
`nifti_set_filenames`; the last two arguments are the ones the call site labels
`set_byte_order` and `compress`. -/
def nifti_set_filenames (nim : nifti_image) (fname : String) (_set_byte_order compress : Int) :
    nifti_image :=
  { nim with fname := some fname, compress := decide (compress ≠ 0) }

/-- Modelled from the spec: the commit-to-disk writer `nifti_image_write`, storing the
container unchanged under its associated filename. -/
def nifti_image_write (disk : Disk) (nim : nifti_image) : Disk :=
  match nim.fname with
  | some f => (f, nim) :: disk
  | none => disk

/-- Modelled from the spec: the combined header+data loader `nifti_image_read`,
returning the container last stored under the path, or no container. -/
def nifti_image_read (disk : Disk) (fname : String) (_read_data : Int) : Option nifti_image :=
  (disk.find? (fun e => e.1 == fname)).map (fun e => e.2)

/-- Modelled from the spec: `malloc`; `avail n` tells whether a request of `n` bytes is
granted.  A granted block has exactly `n` bytes. -/
def malloc (avail : Nat → Bool) (n : Nat) : Option (List Byte) :=
  if avail n then some (List.replicate n 0) else none

/-- Modelled from the spec: `std::memcpy(dst, src, n)` on two byte buffers: the first `n`
bytes of `dst` become the first `n` bytes of `src`.  Copying more bytes than a
buffer holds is undefined behaviour. -/
def memcpy (dst src : List Byte) (n : Nat) : Except Fault (List Byte) :=
  if dst.length < n then .error .write_overrun
  else if src.length < n then .error .read_overrun
  else .ok (src.take n ++ dst.drop n)

/-! ## NIFTIReader -/

/-- Object state of `NIFTIReader`: the member `nim`. -/
structure NIFTIReader where
  nim : Option nifti_image
  deriving DecidableEq

/-- Constructor `NIFTIReader::NIFTIReader(fname)`: the constructed reader, or
the `what()` of the exception thrown. -/
def NIFTIReader.construct (disk : Disk) (fname : String) : Except String NIFTIReader :=
  match nifti_image_read disk fname 1 with
  | none => .error ("Failed to read NIfTI file: " ++ fname)
  | some nim => .ok { nim := some nim }

/-- Accessor `NIFTIReader::GetImage`. -/
def NIFTIReader.GetImage (self : NIFTIReader) : Option nifti_image := self.nim

/-- Member template `NIFTIReader::LoadData<T>(data)`: how the call ends and the
destination buffer afterwards. -/
def NIFTIReader.LoadData (self : NIFTIReader) (T : PixelType) (data : List Byte) :
    Status × List Byte :=
  match self.nim with
  | none => (.thrown "Invalid NIfTI image or missing data", data)
  | some nim =>
    match nim.data with
    | none => (.thrown "Invalid NIfTI image or missing data", data)
    | some raw =>
      match memcpy data raw (mulSizeT nim.nvox T.sizeof) with
      | .error f => (.undefined f, data)
      | .ok data' => (.ok, data')

/-- Virtual `NIFTIReader::LoadImageData(GRAY8*)`. -/
def NIFTIReader.LoadImageData_GRAY8 (self : NIFTIReader) (data : List Byte) :
    Status × List Byte :=
  self.LoadData .GRAY8 data

/-! ## NIFTIWriter -/

/-- Object state of `NIFTIWriter`: members `filename`, `nim`, `imageInfo`. -/
structure NIFTIWriter where
  filename : String
  nim : Option nifti_image
  imageInfo : Image3dInfo
  deriving DecidableEq

/-- Constructor `NIFTIWriter::NIFTIWriter(fname)`; `imageInfo` is left as the
caller found it (it is not initialised by the constructor). -/
def NIFTIWriter.construct (fname : String) (imageInfo : Image3dInfo) : NIFTIWriter :=
  { filename := fname, nim := none, imageInfo := imageInfo }

/-- Member `NIFTIWriter::SetImageInfo`. -/
def NIFTIWriter.SetImageInfo (self : NIFTIWriter) (info : Image3dInfo) : NIFTIWriter :=
  { self with imageInfo := info }

/-- Member `NIFTIWriter::WriteImageInfo(info)`. -/
def NIFTIWriter.WriteImageInfo (self : NIFTIWriter) (info : Image3dInfo) : NIFTIWriter :=
  let nim := nifti_simple_init_nim
  let nim := { nim with nx := info.width }
  let nim := { nim with ny := info.height }
  let nim := { nim with nz := info.depth }
  let nim := { nim with nt := 1 }
  let nim := { nim with nu := 1 }
  let nim := { nim with datatype := info.datatype }
  let nim := { nim with nbyper := info.bytesPerVoxel }
  let nim := { nim with nvox := toSizeT (mulInt (mulInt nim.nx nim.ny) nim.nz) }
  let nim := { nim with dim := nim.dim.set 0 3 }
  let nim := { nim with dim := nim.dim.set 1 nim.nx }
  let nim := { nim with dim := nim.dim.set 2 nim.ny }
  let nim := { nim with dim := nim.dim.set 3 nim.nz }
  let nim := [4, 5, 6, 7].foldl (fun (n : nifti_image) i => { n with dim := n.dim.set i 1 }) nim
  let nim := nifti_set_filenames nim self.filename 0 1
  { self with nim := some nim }

/-- What a call of `WriteImageData` leaves behind: how it ended, the writer
object, the disk, and the allocator/copy calls it made in order. -/
structure WriteOutcome where
  status : Status
  writer : NIFTIWriter
  disk : Disk
  calls : List MemCall
  deriving DecidableEq

/-- Member template `NIFTIWriter::WriteImageData<T>(data, info)`. -/
def NIFTIWriter.WriteImageData (avail : Nat → Bool) (self : NIFTIWriter) (_T : PixelType)
    (data : List Byte) (info : Image3dInfo) (disk : Disk) : WriteOutcome :=
  let self := if self.nim.isNone then self.WriteImageInfo info else self
  match self.nim with
  | none => ⟨.undefined .null_deref, self, disk, []⟩
  | some nim =>
    let size := mulSizeT nim.nvox (toSizeT nim.nbyper)
    match malloc avail size with
    | none =>
      ⟨.thrown "Failed to allocate memory for NIfTI image data",
        { self with nim := some { nim with data := none } }, disk, [.malloc size]⟩
    | some buf =>
      let nim := { nim with data := some buf }
      let count := mulSizeT nim.nvox (toSizeT nim.nbyper)
      match memcpy buf data count with
      | .error f =>
        ⟨.undefined f, { self with nim := some nim }, disk, [.malloc size, .memcpy count]⟩
      | .ok buf' =>
        let nim := { nim with data := some buf' }
        let disk := nifti_image_write disk nim
        ⟨.ok, { self with nim := none }, disk, [.malloc size, .memcpy count]⟩

/-- Virtual `NIFTIWriter::SaveImageData(const GRAY8*)`. -/
def NIFTIWriter.SaveImageData_GRAY8 (avail : Nat → Bool) (self : NIFTIWriter)
    (data : List Byte) (disk : Disk) : WriteOutcome :=
  self.WriteImageData avail .GRAY8 data self.imageInfo disk

/-! ## Driver `TestAndCopy` (`testImgGen.cpp`) -/

/-- Function `TestAndCopy(inputPath, outputPath)`: whether the body of the `try`
block completed (`ok`), or what was caught, and the disk afterwards.
`imageInfo0` is the uninitialised content of the writer's `imageInfo`; the
console output of `LoadImageInfo` is not modelled.  A `std::vector<uint8_t>` of
more than `max_size() = 2^63 - 1` elements is refused with `std::length_error`
before any allocation; otherwise the vector draws on the same allocator as
`malloc` and a refused request throws `std::bad_alloc`. -/
def TestAndCopy (avail : Nat → Bool) (imageInfo0 : Image3dInfo) (disk : Disk)
    (inputPath outputPath : String) : Status × Disk :=
  match NIFTIReader.construct disk inputPath with
  | .error what => (.thrown what, disk)
  | .ok reader =>
    match reader.GetImage with
    | none => (.undefined .null_deref, disk)
    | some nim =>
      let info : Image3dInfo :=
        { width := nim.nx, height := nim.ny, depth := nim.nz,
          datatype := nim.datatype, bytesPerVoxel := nim.nbyper }
      let voxelCount := nim.nvox
      let len := mulSizeT voxelCount (toSizeT nim.nbyper)
      if 2 ^ 63 - 1 < len then
        (.thrown "cannot create std::vector larger than max_size()", disk)
      else if avail len then
        let buffer : List Byte := List.replicate len 0
        match reader.LoadImageData_GRAY8 buffer with
        | (.ok, buffer) =>
          let writer := NIFTIWriter.construct outputPath imageInfo0
          let writer := writer.SetImageInfo info
          let out := writer.WriteImageData avail .GRAY8 buffer info disk
          (out.status, out.disk)
        | (st, _) => (st, disk)
      else (.thrown "std::bad_alloc", disk)

/-! ## Example inputs -/

/-- Example container: one voxel of one byte (`DT_UINT8`). -/
def oneByteImage : nifti_image :=
  { nifti_simple_init_nim with
    ndim := 3, nx := 1, ny := 1, nz := 1, nt := 1, nu := 1, nv := 1, nw := 1,
    dim := [3, 1, 1, 1, 1, 1, 1, 1], nvox := 1, nbyper := 1, datatype := 2,
    data := some [7] }

/-- Example container: one voxel of two bytes (`DT_INT16`). -/
def twoByteImage : nifti_image :=
  { nifti_simple_init_nim with
    ndim := 3, nx := 1, ny := 1, nz := 1, nt := 1, nu := 1, nv := 1, nw := 1,
    dim := [3, 1, 1, 1, 1, 1, 1, 1], nvox := 1, nbyper := 2, datatype := 4,
    data := some [1, 2] }

/-- Metadata of a 2048 x 2048 x 1025 volume of one-byte voxels (`2^32 + 2^22`
voxels). -/
def bigInfo : Image3dInfo :=
  { width := 2048, height := 2048, depth := 1025, datatype := 2, bytesPerVoxel := 1 }

/-- Metadata of the 2 x 2 x 1 volume of one-byte voxels. -/
def smallInfo : Image3dInfo :=
  { width := 2, height := 2, depth := 1, datatype := 2, bytesPerVoxel := 1 }

/-! ## Machine arithmetic lemmas -/

/-- An `int` value already in range is not changed by wrapping. -/
theorem wrapInt_of_range (x : Int) (h0 : -2 ^ 31 ≤ x) (h1 : x < 2 ^ 31) : wrapInt x = x := by
  unfold wrapInt
  rw [Int.emod_eq_of_lt (by omega) (by omega)]
  omega

/-- A non-negative value below `2^64` is not changed by conversion to `size_t`. -/
theorem toSizeT_of_range (x : Int) (h0 : 0 ≤ x) (h1 : x < 2 ^ 64) : (toSizeT x : Int) = x := by
  unfold toSizeT
  rw [Int.emod_eq_of_lt h0 h1]
  exact Int.toNat_of_nonneg h0

/-- The expression `nvox * nbyper` is the mathematical product when `nbyper` is
non-negative and the product fits `size_t`. -/
theorem mulSizeT_exact (a : Nat) (b : Int) (hb : 0 ≤ b) (h : a * b.toNat < 2 ^ 64) :
    mulSizeT a (toSizeT b) = a * b.toNat := by
  unfold mulSizeT toSizeT
  rcases Nat.eq_zero_or_pos a with ha | ha
  · simp [ha]
  · have hb2 : b.toNat < 2 ^ 64 := by
      calc b.toNat = 1 * b.toNat := by simp
        _ ≤ a * b.toNat := Nat.mul_le_mul_right _ ha
        _ < 2 ^ 64 := h
    have hb3 : b % 2 ^ 64 = b := by
      apply Int.emod_eq_of_lt hb
      omega
    rw [hb3]
    exact Nat.mod_eq_of_lt h

/-- Every supported pixel type takes between one and eight bytes. -/
theorem PixelType.sizeof_bounds (T : PixelType) : 1 ≤ T.sizeof ∧ T.sizeof ≤ 8 := by
  cases T <;> decide

/-- For positive extents whose product is below `2^31` the `int` product
`nx * ny * nz`, widened to `size_t`, is the mathematical product. -/
theorem nvox_in_range (m : Image3dInfo) (hw : 0 < m.width) (hh : 0 < m.height)
    (hd : 0 < m.depth) (hr : m.width * m.height * m.depth < 2 ^ 31) :
    (toSizeT (mulInt (mulInt m.width m.height) m.depth) : Int) =
      m.width * m.height * m.depth := by
  have hwh : 0 < m.width * m.height := Int.mul_pos hw hh
  have hwhd : 0 < m.width * m.height * m.depth := Int.mul_pos hwh hd
  have h1 : m.width * m.height < 2 ^ 31 := by nlinarith
  have e1 : mulInt m.width m.height = m.width * m.height := by
    unfold mulInt
    exact wrapInt_of_range _ (by omega) h1
  have e2 : mulInt (mulInt m.width m.height) m.depth = m.width * m.height * m.depth := by
    rw [e1]
    unfold mulInt
    exact wrapInt_of_range _ (by omega) hr
  rw [e2]
  exact toSizeT_of_range _ (by omega) (by omega)

/-! ## Memory and disk lemmas -/

/-- Copying `n` bytes into a fresh block of `n` bytes from a source holding at
least `n` bytes fills the block with the first `n` source bytes. -/
theorem memcpy_fresh (src : List Byte) (n : Nat) (h : n ≤ src.length) :
    memcpy (List.replicate n 0) src n = .ok (src.take n) := by
  unfold memcpy
  have h2 : ¬ src.length < n := by omega
  simp [h2]

/-- Copying `n` bytes into a fresh block of `n` bytes from a shorter source
reads past the end of the source. -/
theorem memcpy_fresh_short (src : List Byte) (n : Nat) (h : src.length < n) :
    memcpy (List.replicate n 0) src n = .error .read_overrun := by
  unfold memcpy
  simp [h]

/-- A container written under a filename is the one read back from it. -/
theorem nifti_image_read_written (disk : Disk) (nim : nifti_image) (f : String)
    (h : nim.fname = some f) :
    nifti_image_read (nifti_image_write disk nim) f 1 = some nim := by
  simp [nifti_image_read, nifti_image_write, h]

/-! ## The writer, step by step -/

/-- The header `WriteImageInfo` stores, field by field. -/
theorem WriteImageInfo_nim (w : NIFTIWriter) (m : Image3dInfo) :
    (w.WriteImageInfo m).nim = some
      { ndim := 0, nx := m.width, ny := m.height, nz := m.depth, nt := 1, nu := 1,
        nv := 0, nw := 0,
        dim := [3, m.width, m.height, m.depth, 1, 1, 1, 1],
        nvox := toSizeT (mulInt (mulInt m.width m.height) m.depth),
        nbyper := m.bytesPerVoxel, datatype := m.datatype,
        data := none, fname := some w.filename, compress := true } := rfl

/-- On a writer without header, `WriteImageData` first builds the header from
the metadata it was passed. -/
theorem WriteImageData_empty (avail : Nat → Bool) (w : NIFTIWriter) (T : PixelType)
    (data : List Byte) (info : Image3dInfo) (disk : Disk) (h : w.nim = none) :
    w.WriteImageData avail T data info disk =
      (w.WriteImageInfo info).WriteImageData avail T data info disk := by
  unfold NIFTIWriter.WriteImageData
  simp [h, WriteImageInfo_nim]

/-- On a writer holding a header, `WriteImageData` has three outcomes: the
allocation fails, the source is shorter than the copy length, or the container
is committed and the writer reset. -/
theorem WriteImageData_built (avail : Nat → Bool) (w : NIFTIWriter) (nim : nifti_image)
    (T : PixelType) (data : List Byte) (info : Image3dInfo) (disk : Disk)
    (h : w.nim = some nim) :
    w.WriteImageData avail T data info disk =
      if avail (mulSizeT nim.nvox (toSizeT nim.nbyper)) = true then
        if data.length < mulSizeT nim.nvox (toSizeT nim.nbyper) then
          ⟨.undefined .read_overrun,
            { w with nim := some { nim with
                data := some (List.replicate (mulSizeT nim.nvox (toSizeT nim.nbyper)) 0) } },
            disk,
            [.malloc (mulSizeT nim.nvox (toSizeT nim.nbyper)),
             .memcpy (mulSizeT nim.nvox (toSizeT nim.nbyper))]⟩
        else
          ⟨.ok, { w with nim := none },
            nifti_image_write disk { nim with
              data := some (data.take (mulSizeT nim.nvox (toSizeT nim.nbyper))) },
            [.malloc (mulSizeT nim.nvox (toSizeT nim.nbyper)),
             .memcpy (mulSizeT nim.nvox (toSizeT nim.nbyper))]⟩
      else
        ⟨.thrown "Failed to allocate memory for NIfTI image data",
          { w with nim := some { nim with data := none } }, disk,
          [.malloc (mulSizeT nim.nvox (toSizeT nim.nbyper))]⟩ := by
  unfold NIFTIWriter.WriteImageData
  by_cases ha : avail (mulSizeT nim.nvox (toSizeT nim.nbyper)) = true
  · by_cases hl : data.length < mulSizeT nim.nvox (toSizeT nim.nbyper)
    · simp [h, malloc, ha, hl, memcpy_fresh_short]
    · simp [h, malloc, ha, hl, memcpy_fresh _ _ (Nat.le_of_not_lt hl)]
  · simp [h, malloc, ha]

/-- What `WriteImageData` does when the allocation is refused, for every writer
state: it throws, commits nothing, and the writer keeps the staged header with
a null data pointer. -/
theorem WriteImageData_alloc_failure (avail : Nat → Bool) (w : NIFTIWriter) (T : PixelType)
    (data : List Byte) (m : Image3dInfo) (disk : Disk) (nim : nifti_image)
    (hn : (if w.nim.isNone then w.WriteImageInfo m else w).nim = some nim)
    (ha : avail (mulSizeT nim.nvox (toSizeT nim.nbyper)) = false) :
    (w.WriteImageData avail T data m disk).status =
        .thrown "Failed to allocate memory for NIfTI image data" ∧
    (w.WriteImageData avail T data m disk).disk = disk ∧
    (w.WriteImageData avail T data m disk).writer.nim = some { nim with data := none } ∧
    (w.WriteImageData avail T data m disk).calls =
      [.malloc (mulSizeT nim.nvox (toSizeT nim.nbyper))] := by
  cases h : w.nim with
  | none =>
    rw [WriteImageData_empty avail w T data m disk h]
    simp only [h, Option.isNone_none, if_true] at hn
    rw [WriteImageData_built avail _ nim T data m disk hn]
    simp [ha]
  | some nim' =>
    simp only [h, Option.isNone_some, Bool.false_eq_true, if_false, Option.some.injEq] at hn
    subst hn
    rw [WriteImageData_built avail w nim' T data m disk h]
    simp [ha]

/-- When the reader holds a container with a voxel buffer and both the buffer
and the destination hold at least `n = nvox * sizeof(T)` bytes, `LoadData`
returns normally and replaces the first `n` bytes of the destination. -/
theorem LoadData_ok (c : nifti_image) (raw d : List Byte) (T : PixelType) (n : Nat)
    (hraw : c.data = some raw) (hn : mulSizeT c.nvox T.sizeof = n)
    (h1 : n ≤ raw.length) (h2 : n ≤ d.length) :
    (NIFTIReader.mk (some c)).LoadData T d = (.ok, raw.take n ++ d.drop n) := by
  have a1 : ¬ d.length < n := by omega
  have a2 : ¬ raw.length < n := by omega
  simp [NIFTIReader.LoadData, hraw, hn, memcpy, a1, a2]

/-- Writing on a fresh writer and reading the file back, in general: with `n`
the byte count `nvox * nbyper` the code computes (and `nvox * sizeof(T)` the
same number), a granted allocation and at least `n` bytes in source and
destination, the write commits, the file opens with the written metadata, and
`LoadData` replaces the first `n` bytes of the destination by the first `n`
bytes of the source. -/
theorem write_then_read (avail : Nat → Bool) (fname : String) (info0 m : Image3dInfo)
    (T : PixelType) (B d : List Byte) (disk : Disk) (n : Nat)
    (hsz : mulSizeT (toSizeT (mulInt (mulInt m.width m.height) m.depth))
      (toSizeT m.bytesPerVoxel) = n)
    (hld : mulSizeT (toSizeT (mulInt (mulInt m.width m.height) m.depth)) T.sizeof = n)
    (ha : avail n = true) (hB : n ≤ B.length) (hd : n ≤ d.length) :
    ((NIFTIWriter.construct fname info0).WriteImageData avail T B m disk).status = .ok ∧
    ∃ c, NIFTIReader.construct
        ((NIFTIWriter.construct fname info0).WriteImageData avail T B m disk).disk fname =
          .ok { nim := some c } ∧
      c.nx = m.width ∧ c.ny = m.height ∧ c.nz = m.depth ∧
      c.datatype = m.datatype ∧ c.nbyper = m.bytesPerVoxel ∧
      (NIFTIReader.mk (some c)).LoadData T d = (.ok, B.take n ++ d.drop n) := by
  rw [WriteImageData_empty _ _ _ _ _ _ rfl,
    WriteImageData_built _ _ _ _ _ _ _ (WriteImageInfo_nim _ _)]
  have hl : ¬ B.length < n := by omega
  simp only [hsz, ha, if_true, hl, if_false]
  refine ⟨trivial,
    { ndim := 0, nx := m.width, ny := m.height, nz := m.depth, nt := 1, nu := 1, nv := 0,
      nw := 0, dim := [3, m.width, m.height, m.depth, 1, 1, 1, 1],
      nvox := toSizeT (mulInt (mulInt m.width m.height) m.depth),
      nbyper := m.bytesPerVoxel, datatype := m.datatype, data := some (B.take n),
      fname := some fname, compress := true }, ?_, rfl, rfl, rfl, rfl, rfl, ?_⟩
  · unfold NIFTIReader.construct
    rw [nifti_image_read_written _ _ fname rfl]
    rfl
  · rw [LoadData_ok _ (B.take n) d T n rfl hld (by rw [List.length_take]; omega) hd,
      List.take_take, Nat.min_self]

/-- Round trip for volumes whose voxel count fits an `int`: with positive
extents, `width * height * depth < 2^31`, `sizeof(T) = bytesPerVoxel`, a source
of exactly `width * height * depth` elements, a destination of the same length
and a granted allocation, writing on a fresh writer and reading the file back
returns the source, and the opened container reports the written metadata. -/
theorem round_trip_in_range (avail : Nat → Bool) (fname : String) (info0 m : Image3dInfo)
    (T : PixelType) (B dest : List Byte) (disk : Disk)
    (hw : 0 < m.width) (hh : 0 < m.height) (hd : 0 < m.depth)
    (hr : m.width * m.height * m.depth < 2 ^ 31)
    (hT : (T.sizeof : Int) = m.bytesPerVoxel)
    (hB : (B.length : Int) = m.width * m.height * m.depth * T.sizeof)
    (hD : dest.length = B.length)
    (ha : avail B.length = true) :
    ((NIFTIWriter.construct fname info0).WriteImageData avail T B m disk).status = .ok ∧
    ∃ c, NIFTIReader.construct
        ((NIFTIWriter.construct fname info0).WriteImageData avail T B m disk).disk fname =
          .ok { nim := some c } ∧
      c.nx = m.width ∧ c.ny = m.height ∧ c.nz = m.depth ∧
      c.datatype = m.datatype ∧ c.nbyper = m.bytesPerVoxel ∧
      (NIFTIReader.mk (some c)).LoadData T dest = (.ok, B) := by
  have hn := nvox_in_range m hw hh hd hr
  have hs := T.sizeof_bounds
  have hpos : 0 < m.width * m.height * m.depth := Int.mul_pos (Int.mul_pos hw hh) hd
  have hNlt : toSizeT (mulInt (mulInt m.width m.height) m.depth) < 2 ^ 31 := by omega
  have hlen : B.length = toSizeT (mulInt (mulInt m.width m.height) m.depth) * T.sizeof := by
    have : (B.length : Int) =
        ((toSizeT (mulInt (mulInt m.width m.height) m.depth) * T.sizeof : Nat) : Int) := by
      rw [hB, ← hn]; push_cast; ring
    exact_mod_cast this
  have hle : toSizeT (mulInt (mulInt m.width m.height) m.depth) * T.sizeof < 2 ^ 64 := by
    calc toSizeT (mulInt (mulInt m.width m.height) m.depth) * T.sizeof
        ≤ toSizeT (mulInt (mulInt m.width m.height) m.depth) * 8 :=
          Nat.mul_le_mul_left _ hs.2
      _ < 2 ^ 64 := by omega
  have hsz : mulSizeT (toSizeT (mulInt (mulInt m.width m.height) m.depth))
      (toSizeT m.bytesPerVoxel) = B.length := by
    rw [mulSizeT_exact _ m.bytesPerVoxel (by omega)]
    · rw [← hT]; simpa using hlen.symm
    · rw [← hT]
      simpa only [Int.toNat_ofNat] using hle
  have hld : mulSizeT (toSizeT (mulInt (mulInt m.width m.height) m.depth)) T.sizeof =
      B.length := by
    unfold mulSizeT
    rw [hlen]
    exact Nat.mod_eq_of_lt hle
  have key := write_then_read avail fname info0 m T B dest disk B.length hsz hld ha
    (Nat.le_refl _) (Nat.le_of_eq hD.symm)
  rw [List.take_length, ← hD, List.drop_length, List.append_nil] at key
  exact key

/-- The concrete scenario: a 2 x 2 x 1 volume of bytes `10, 20, 30, 40` written
to `out.nii` is read back unchanged. -/
theorem round_trip_in_range_example :
    ((NIFTIWriter.construct "out.nii" smallInfo).WriteImageData (fun _ => true) .GRAY8
        [10, 20, 30, 40] smallInfo []).status = .ok ∧
    ∃ c, NIFTIReader.construct
        ((NIFTIWriter.construct "out.nii" smallInfo).WriteImageData (fun _ => true) .GRAY8
          [10, 20, 30, 40] smallInfo []).disk "out.nii" = .ok { nim := some c } ∧
      c.nx = 2 ∧ c.ny = 2 ∧ c.nz = 1 ∧ c.datatype = 2 ∧ c.nbyper = 1 ∧
      (NIFTIReader.mk (some c)).LoadData .GRAY8 [0, 0, 0, 0] = (.ok, [10, 20, 30, 40]) :=
  round_trip_in_range (fun _ => true) "out.nii" smallInfo smallInfo .GRAY8 [10, 20, 30, 40]
    [0, 0, 0, 0] [] (by decide) (by decide) (by decide) (by decide) (by decide) (by decide)
    (by decide) rfl

/-- Splicing the first `k` of `N` copies of `a` onto the rest of `N` copies of a
different `b`, with `k < N`, does not give `N` copies of `a`. -/
theorem replicate_splice_ne (N k : Nat) (a b : Byte) (hk : k < N) (hab : a ≠ b) :
    (List.replicate N a).take k ++ (List.replicate N b).drop k ≠ List.replicate N a := by
  intro h
  rw [List.take_replicate, List.drop_replicate, Nat.min_eq_left (Nat.le_of_lt hk)] at h
  have h1 : List.replicate N a = List.replicate k a ++ List.replicate (N - k) a := by
    rw [← List.replicate_add]
    congr 1
    omega
  rw [h1] at h
  have h2 := List.append_cancel_left h
  have h3 := (List.replicate_right_inj (by omega : N - k ≠ 0)).1 h2
  exact hab h3.symm

/-- The `int` product of the extents of `bigInfo` wraps to `2^22`. -/
theorem bigInfo_nvox :
    toSizeT (mulInt (mulInt bigInfo.width bigInfo.height) bigInfo.depth) = 4194304 := by
  decide

/-- The byte count `nvox * nbyper` computed for `bigInfo`. -/
theorem bigInfo_size : mulSizeT 4194304 (toSizeT bigInfo.bytesPerVoxel) = 4194304 := by
  decide

/-! ## The claims -/

/-- C1 (round trip), evaluated at a 2048 x 2048 x 1025 volume of one-byte
voxels: the extents are positive, `sizeof(GRAY8) = bytesPerVoxel`, the source
(all ones) holds exactly `width * height * depth = 4299161600` elements, the
write returns normally and the file opens, yet `LoadData` into a zeroed
destination of the same length replaces only its first 4194304 bytes, so the
destination differs from the source. -/
theorem C1_round_trip_loses_large_volume :
    (0 < bigInfo.width ∧ 0 < bigInfo.height ∧ 0 < bigInfo.depth) ∧
    (PixelType.GRAY8.sizeof : Int) = bigInfo.bytesPerVoxel ∧
    ((List.replicate 4299161600 (1 : Byte)).length : Int) =
      bigInfo.width * bigInfo.height * bigInfo.depth ∧
    ((NIFTIWriter.construct "out.nii" bigInfo).WriteImageData (fun _ => true) .GRAY8
        (List.replicate 4299161600 1) bigInfo []).status = .ok ∧
    (∃ c, NIFTIReader.construct
        ((NIFTIWriter.construct "out.nii" bigInfo).WriteImageData (fun _ => true) .GRAY8
          (List.replicate 4299161600 1) bigInfo []).disk "out.nii" = .ok { nim := some c } ∧
      (NIFTIReader.mk (some c)).LoadData .GRAY8 (List.replicate 4299161600 0) =
        (.ok, (List.replicate 4299161600 1).take 4194304 ++
          (List.replicate 4299161600 0).drop 4194304)) ∧
    (List.replicate 4299161600 (1 : Byte)).take 4194304 ++
        (List.replicate 4299161600 0).drop 4194304 ≠ List.replicate 4299161600 1 := by
  have hlen : ∀ a : Byte, 4194304 ≤ (List.replicate 4299161600 a).length := by
    intro a
    rw [List.length_replicate]
    decide
  have key := write_then_read (fun _ => true) "out.nii" bigInfo bigInfo .GRAY8
    (List.replicate 4299161600 1) (List.replicate 4299161600 0) [] 4194304
    (by decide) (by decide) rfl (hlen 1) (hlen 0)
  refine ⟨by decide, by decide, ?_, key.1, ?_, ?_⟩
  · rw [List.length_replicate]
    decide
  · obtain ⟨c, h1, -, -, -, -, -, h2⟩ := key.2
    exact ⟨c, h1, h2⟩
  · exact replicate_splice_ne 4299161600 4194304 1 0 (by decide) (by decide)

/-- C2 (type-mismatch boundary): for every writer state, metadata, source and
pixel type, with `nim` the header the write uses (the prebuilt one, or the one
built from the metadata), `WriteImageData` requests `nim->nvox * nim->nbyper`
bytes from the allocator and, when it copies at all, copies that same number of
bytes; it never writes past the end of the container buffer; a committed
buffer has exactly that many bytes; the outcome is the same for every pixel
type; and the `size_t` expression is the mathematical product whenever
`nbyper` is non-negative and the product fits `size_t`. -/
theorem C2_copy_length_from_header (avail : Nat → Bool) (w : NIFTIWriter) (T : PixelType)
    (data : List Byte) (m : Image3dInfo) (disk : Disk) :
    ∃ nim, (if w.nim.isNone then w.WriteImageInfo m else w).nim = some nim ∧
      ((w.WriteImageData avail T data m disk).calls =
          [.malloc (mulSizeT nim.nvox (toSizeT nim.nbyper))] ∨
        (w.WriteImageData avail T data m disk).calls =
          [.malloc (mulSizeT nim.nvox (toSizeT nim.nbyper)),
           .memcpy (mulSizeT nim.nvox (toSizeT nim.nbyper))]) ∧
      (w.WriteImageData avail T data m disk).status ≠ .undefined .write_overrun ∧
      ((w.WriteImageData avail T data m disk).status = .ok →
        (data.take (mulSizeT nim.nvox (toSizeT nim.nbyper))).length =
            mulSizeT nim.nvox (toSizeT nim.nbyper) ∧
          (w.WriteImageData avail T data m disk).disk =
            nifti_image_write disk { nim with
              data := some (data.take (mulSizeT nim.nvox (toSizeT nim.nbyper))) }) ∧
      (∀ T', w.WriteImageData avail T' data m disk = w.WriteImageData avail T data m disk) ∧
      (0 ≤ nim.nbyper → nim.nvox * nim.nbyper.toNat < 2 ^ 64 →
        mulSizeT nim.nvox (toSizeT nim.nbyper) = nim.nvox * nim.nbyper.toNat) := by
  have key : ∀ (w : NIFTIWriter) (nim : nifti_image), w.nim = some nim →
      ((w.WriteImageData avail T data m disk).calls =
          [.malloc (mulSizeT nim.nvox (toSizeT nim.nbyper))] ∨
        (w.WriteImageData avail T data m disk).calls =
          [.malloc (mulSizeT nim.nvox (toSizeT nim.nbyper)),
           .memcpy (mulSizeT nim.nvox (toSizeT nim.nbyper))]) ∧
      (w.WriteImageData avail T data m disk).status ≠ .undefined .write_overrun ∧
      ((w.WriteImageData avail T data m disk).status = .ok →
        (data.take (mulSizeT nim.nvox (toSizeT nim.nbyper))).length =
            mulSizeT nim.nvox (toSizeT nim.nbyper) ∧
          (w.WriteImageData avail T data m disk).disk =
            nifti_image_write disk { nim with
              data := some (data.take (mulSizeT nim.nvox (toSizeT nim.nbyper))) }) := by
    intro w nim h
    rw [WriteImageData_built avail w nim T data m disk h]
    by_cases ha : avail (mulSizeT nim.nvox (toSizeT nim.nbyper)) = true
    · by_cases hl : data.length < mulSizeT nim.nvox (toSizeT nim.nbyper)
      · simp [ha, hl]
      · simp [ha, hl]
        omega
    · simp [ha]
  cases h : w.nim with
  | none =>
    obtain ⟨nim, hn⟩ : ∃ nim, (w.WriteImageInfo m).nim = some nim := ⟨_, WriteImageInfo_nim w m⟩
    have k := key _ nim hn
    rw [← WriteImageData_empty avail w T data m disk h] at k
    exact ⟨nim, by simpa [h] using hn, k.1, k.2.1, k.2.2, fun _ => rfl, mulSizeT_exact _ _⟩
  | some nim =>
    exact ⟨nim, by simp [h], (key w nim h).1, (key w nim h).2.1, (key w nim h).2.2,
      fun _ => rfl, mulSizeT_exact _ _⟩

/-- C3 (header construction): for every writer and metadata `m`, after
`WriteImageInfo(m)` the writer holds a container with `nx = m.width`,
`ny = m.height`, `nz = m.depth`, `dim = [3, nx, ny, nz, 1, 1, 1, 1]`,
`nt = nu = 1`, `datatype = m.datatype`, `nbyper = m.bytesPerVoxel`, the
writer's filename associated and compression requested. -/
theorem C3_header_construction (w : NIFTIWriter) (m : Image3dInfo) :
    ∃ nim, (w.WriteImageInfo m).nim = some nim ∧
      nim.nx = m.width ∧ nim.ny = m.height ∧ nim.nz = m.depth ∧
      nim.dim = [3, m.width, m.height, m.depth, 1, 1, 1, 1] ∧
      nim.nt = 1 ∧ nim.nu = 1 ∧
      nim.datatype = m.datatype ∧ nim.nbyper = m.bytesPerVoxel ∧
      nim.fname = some w.filename ∧ nim.compress = true :=
  ⟨_, rfl, rfl, rfl, rfl, rfl, rfl, rfl, rfl, rfl, rfl, rfl⟩

/-- C4 (voxel count and buffer length), evaluated at positive extents
2048 x 2048 x 1025 with one byte per voxel: the mathematical product is
4299161600, but the voxel count `WriteImageInfo` stores is 4194304, and for
every source `WriteImageData` allocates and copies 4194304 bytes. -/
theorem C4_voxel_count_wraps :
    (0 < bigInfo.width ∧ 0 < bigInfo.height ∧ 0 < bigInfo.depth) ∧
    bigInfo.width * bigInfo.height * bigInfo.depth * bigInfo.bytesPerVoxel = 4299161600 ∧
    ((NIFTIWriter.construct "out.nii" bigInfo).WriteImageInfo bigInfo).nim.map
        (fun nim => nim.nvox) = some 4194304 ∧
    (∀ B : List Byte,
      ((NIFTIWriter.construct "out.nii" bigInfo).WriteImageData (fun _ => true) .GRAY8 B
        bigInfo []).calls = [.malloc 4194304, .memcpy 4194304]) := by
  refine ⟨by decide, by decide, by decide, ?_⟩
  intro B
  rw [WriteImageData_empty _ _ _ _ _ _ rfl,
    WriteImageData_built _ _ _ _ _ _ _ (WriteImageInfo_nim _ _)]
  simp only [bigInfo_nvox, bigInfo_size, if_true]
  split_ifs <;> rfl

/-- C5 (write failure), evaluated on a fresh writer with a 1 x 1 x 1 volume
when the allocator refuses the request: the allocation error is thrown and
nothing is committed, but the writer still holds the staged container. -/
theorem C5_allocation_failure_keeps_header :
    ((NIFTIWriter.construct "out.nii" ⟨0, 0, 0, 0, 0⟩).WriteImageData (fun _ => false)
        .GRAY8 [7] ⟨1, 1, 1, 2, 1⟩ []).status =
        .thrown "Failed to allocate memory for NIfTI image data" ∧
    ((NIFTIWriter.construct "out.nii" ⟨0, 0, 0, 0, 0⟩).WriteImageData (fun _ => false)
        .GRAY8 [7] ⟨1, 1, 1, 2, 1⟩ []).disk = [] ∧
    ((NIFTIWriter.construct "out.nii" ⟨0, 0, 0, 0, 0⟩).WriteImageData (fun _ => false)
        .GRAY8 [7] ⟨1, 1, 1, 2, 1⟩ []).writer.nim ≠ none := by
  decide

/-- C6 (single-shot writer reuse): whenever `WriteImageData` with `m1` returns
normally, the writer's container is null afterwards, and the header
`WriteImageInfo(m2)` then builds equals the header `WriteImageInfo(m2)` builds
on a freshly constructed writer with the same path. -/
theorem C6_single_shot_reuse (avail : Nat → Bool) (w : NIFTIWriter) (T : PixelType)
    (data : List Byte) (m1 m2 : Image3dInfo) (disk : Disk) (info0 : Image3dInfo)
    (h : (w.WriteImageData avail T data m1 disk).status = .ok) :
    (w.WriteImageData avail T data m1 disk).writer.nim = none ∧
    ((w.WriteImageData avail T data m1 disk).writer.WriteImageInfo m2).nim =
      ((NIFTIWriter.construct w.filename info0).WriteImageInfo m2).nim := by
  have key : ∀ (w : NIFTIWriter) (nim : nifti_image), w.nim = some nim →
      (w.WriteImageData avail T data m1 disk).status = .ok →
      (w.WriteImageData avail T data m1 disk).writer.nim = none ∧
      (w.WriteImageData avail T data m1 disk).writer.filename = w.filename := by
    intro w nim hn
    rw [WriteImageData_built avail w nim T data m1 disk hn]
    by_cases ha : avail (mulSizeT nim.nvox (toSizeT nim.nbyper)) = true
    · by_cases hl : data.length < mulSizeT nim.nvox (toSizeT nim.nbyper)
      · simp [ha, hl]
      · simp [ha, hl]
    · simp [ha]
  have main : (w.WriteImageData avail T data m1 disk).writer.nim = none ∧
      (w.WriteImageData avail T data m1 disk).writer.filename = w.filename := by
    cases hn : w.nim with
    | none =>
      rw [WriteImageData_empty avail w T data m1 disk hn] at h ⊢
      exact key _ _ (WriteImageInfo_nim w m1) h
    | some nim => exact key w nim hn h
  refine ⟨main.1, ?_⟩
  rw [WriteImageInfo_nim, WriteImageInfo_nim, main.2]
  rfl

/-- C6 at a concrete input: a 2 x 2 x 1 byte volume is written, then a header
for a 1 x 1 x 1 float volume is built. -/
theorem C6_single_shot_reuse_witness :
    ((NIFTIWriter.construct "out.nii" smallInfo).WriteImageData (fun _ => true) .GRAY8
        [10, 20, 30, 40] smallInfo []).status = .ok ∧
    (((NIFTIWriter.construct "out.nii" smallInfo).WriteImageData (fun _ => true) .GRAY8
        [10, 20, 30, 40] smallInfo []).writer.nim = none ∧
      (((NIFTIWriter.construct "out.nii" smallInfo).WriteImageData (fun _ => true) .GRAY8
        [10, 20, 30, 40] smallInfo []).writer.WriteImageInfo ⟨1, 1, 1, 16, 4⟩).nim =
        ((NIFTIWriter.construct
            (NIFTIWriter.construct "out.nii" smallInfo).filename smallInfo).WriteImageInfo
          ⟨1, 1, 1, 16, 4⟩).nim) :=
  ⟨by decide,
    C6_single_shot_reuse (fun _ => true) (NIFTIWriter.construct "out.nii" smallInfo) .GRAY8
      [10, 20, 30, 40] smallInfo ⟨1, 1, 1, 16, 4⟩ [] smallInfo (by decide)⟩

/-- C7 fails as stated: a reader that holds a container with a decoded voxel
buffer of one byte `7`, asked for one `GRAY16` element into a destination of two
bytes, neither fails with the no-data error nor returns normally: the copy of
`nvox * sizeof(GRAY16) = 2` bytes reads past the end of the container buffer. -/
theorem C7_load_overruns_short_buffer :
    (NIFTIReader.mk (some oneByteImage)).nim ≠ none ∧ oneByteImage.data = some [7] ∧
    oneByteImage.nvox * PixelType.GRAY16.sizeof = 2 ∧
    (NIFTIReader.mk (some oneByteImage)).LoadData .GRAY16 [0, 0] =
      (.undefined .read_overrun, [0, 0]) := by
  decide

/-- C7 (empty-data read), amended: for every reader state, pixel type `T` and
destination, `LoadData<T>` throws the no-data error, leaving the destination
untouched, if and only if the reader has no container or its container has no
decoded voxel buffer, and it throws in no other state.  In every other state,
with `n` the copy length `nvox * sizeof(T)` in `size_t` arithmetic (the
mathematical product whenever that is below `2^64`): when the container
buffer and the destination each hold at least `n` bytes it returns normally
and overwrites exactly the first `n` bytes of the destination with the first
`n` bytes of the container buffer; when the destination holds fewer than `n`
bytes the copy writes past its end; and when the destination holds `n` bytes
but the container buffer fewer, the copy reads past the end of the container
buffer. -/
theorem C7_load_data (r : NIFTIReader) (T : PixelType) (dest : List Byte) :
    (r.LoadData T dest = (.thrown "Invalid NIfTI image or missing data", dest) ↔
      (r.nim = none ∨ ∃ nim, r.nim = some nim ∧ nim.data = none)) ∧
    ((∃ what, (r.LoadData T dest).1 = .thrown what) ↔
      (r.nim = none ∨ ∃ nim, r.nim = some nim ∧ nim.data = none)) ∧
    (∀ nim raw, r.nim = some nim → nim.data = some raw →
      (mulSizeT nim.nvox T.sizeof ≤ raw.length → mulSizeT nim.nvox T.sizeof ≤ dest.length →
        r.LoadData T dest =
          (.ok, raw.take (mulSizeT nim.nvox T.sizeof) ++
            dest.drop (mulSizeT nim.nvox T.sizeof))) ∧
      (dest.length < mulSizeT nim.nvox T.sizeof →
        (r.LoadData T dest).1 = .undefined .write_overrun) ∧
      (mulSizeT nim.nvox T.sizeof ≤ dest.length → raw.length < mulSizeT nim.nvox T.sizeof →
        (r.LoadData T dest).1 = .undefined .read_overrun) ∧
      (nim.nvox * T.sizeof < 2 ^ 64 →
        mulSizeT nim.nvox T.sizeof = nim.nvox * T.sizeof)) := by
  unfold NIFTIReader.LoadData
  cases hn : r.nim with
  | none => simp
  | some nim =>
    cases hd : nim.data with
    | none =>
      refine ⟨by simp [hd], by simp [hd], ?_⟩
      intro nim' raw' h1 h2
      cases h1
      rw [hd] at h2
      cases h2
    | some raw =>
      refine ⟨?_, ?_, ?_⟩
      · simp only [hd]
        cases hm : memcpy dest raw (mulSizeT nim.nvox T.sizeof) <;> simp [hd]
      · simp only [hd]
        cases hm : memcpy dest raw (mulSizeT nim.nvox T.sizeof) <;> simp [hd]
      · intro nim' raw' h1 h2
        cases h1
        rw [hd] at h2
        cases h2
        refine ⟨?_, ?_, ?_, ?_⟩
        · intro h3 h4
          have a1 : ¬ dest.length < mulSizeT nim.nvox T.sizeof := by omega
          have a2 : ¬ raw.length < mulSizeT nim.nvox T.sizeof := by omega
          simp [hd, memcpy, a1, a2]
        · intro h3
          simp [hd, memcpy, h3]
        · intro h3 h4
          have a1 : ¬ dest.length < mulSizeT nim.nvox T.sizeof := by omega
          simp [hd, memcpy, a1, h4]
        · intro h3
          unfold mulSizeT
          exact Nat.mod_eq_of_lt h3

/-- C7 at a concrete input: one `GRAY8` element is copied into a destination
of two bytes, whose second byte is kept. -/
theorem C7_load_data_witness :
    (NIFTIReader.mk (some oneByteImage)).LoadData .GRAY8 [0, 9] = (.ok, [7, 9]) :=
  ((C7_load_data (NIFTIReader.mk (some oneByteImage)) .GRAY8 [0, 9]).2.2 oneByteImage [7]
    rfl rfl).1 (by decide) (by decide)

/-- C8 (open failure): for every disk and path, constructing a `NIFTIReader`
throws exactly when the loader returns no container; the message thrown is
`Failed to read NIfTI file: ` followed by the path; when the loader returns a
container the reader is bound to exactly that container; and every constructed
reader has a non-null container, the one the loader returned. -/
theorem C8_open_failure (disk : Disk) (fname : String) :
    ((∃ what, NIFTIReader.construct disk fname = .error what) ↔
        nifti_image_read disk fname 1 = none) ∧
    ((∀ r, NIFTIReader.construct disk fname ≠ .ok r) ↔
        nifti_image_read disk fname 1 = none) ∧
    (∀ what, NIFTIReader.construct disk fname = .error what →
        what = "Failed to read NIfTI file: " ++ fname ∧ fname.data <:+ what.data) ∧
    (∀ c, nifti_image_read disk fname 1 = some c →
        NIFTIReader.construct disk fname = .ok { nim := some c }) ∧
    (∀ r, NIFTIReader.construct disk fname = .ok r →
        r.nim ≠ none ∧ r.nim = nifti_image_read disk fname 1) := by
  unfold NIFTIReader.construct
  cases h : nifti_image_read disk fname 1 with
  | none =>
    refine ⟨⟨fun _ => rfl, fun _ => ⟨_, rfl⟩⟩, ⟨fun _ => rfl, ?_⟩, ?_, ?_, ?_⟩
    · intro _ r hr
      cases hr
    · intro what hw
      cases hw
      exact ⟨rfl, by rw [String.data_append]; exact List.suffix_append _ _⟩
    · intro c hc
      cases hc
    · intro r hr
      cases hr
  | some c =>
    refine ⟨⟨?_, ?_⟩, ⟨?_, ?_⟩, ?_, ?_, ?_⟩
    · rintro ⟨what, hw⟩
      cases hw
    · intro hc
      cases hc
    · intro hr
      exact absurd rfl (hr _)
    · intro hc
      cases hc
    · intro what hw
      cases hw
    · intro c' hc
      cases hc
      rfl
    · intro r hr
      cases hr
      exact ⟨by simp, rfl⟩

/-- C9 (copy test), evaluated at an input file holding one `DT_INT16` voxel with
bytes `1, 2`: `TestAndCopy` completes, and the committed output has the same
voxel count and bytes per voxel but the voxel buffer `1, 0`. -/
theorem C9_copy_drops_bytes :
    twoByteImage.data = some [1, 2] ∧
    (TestAndCopy (fun _ => true) ⟨0, 0, 0, 0, 0⟩ [("in.nii", twoByteImage)] "in.nii"
        "out.nii").1 = .ok ∧
    (nifti_image_read
        (TestAndCopy (fun _ => true) ⟨0, 0, 0, 0, 0⟩ [("in.nii", twoByteImage)] "in.nii"
          "out.nii").2 "out.nii" 1).map (fun c => (c.nvox, c.nbyper, c.data)) =
      some (1, 2, some [1, 0]) := by
  decide

/-- C10 (a prebuilt header overrides the metadata passed to the write): after
`WriteImageInfo(m1)`, `WriteImageData(source, m2)` has the outcome of
`WriteImageData(source, m1)`; the size requested from the allocator and the
number of bytes copied are `nvox * nbyper` of the header built from `m1`, and a
committed container is that header with the copied bytes; on a writer without
header the call equals `WriteImageInfo(m2)` followed by
`WriteImageData(source, m2)`. -/
theorem C10_prebuilt_header_overrides (avail : Nat → Bool) (w : NIFTIWriter) (T : PixelType)
    (data : List Byte) (m1 m2 : Image3dInfo) (disk : Disk) (fname : String)
    (info0 : Image3dInfo) :
    (w.WriteImageInfo m1).WriteImageData avail T data m2 disk =
        (w.WriteImageInfo m1).WriteImageData avail T data m1 disk ∧
    (∃ nim, (w.WriteImageInfo m1).nim = some nim ∧
      nim.nvox = toSizeT (mulInt (mulInt m1.width m1.height) m1.depth) ∧
      nim.nbyper = m1.bytesPerVoxel ∧
      (((w.WriteImageInfo m1).WriteImageData avail T data m2 disk).calls =
          [.malloc (mulSizeT nim.nvox (toSizeT nim.nbyper))] ∨
        ((w.WriteImageInfo m1).WriteImageData avail T data m2 disk).calls =
          [.malloc (mulSizeT nim.nvox (toSizeT nim.nbyper)),
           .memcpy (mulSizeT nim.nvox (toSizeT nim.nbyper))]) ∧
      (((w.WriteImageInfo m1).WriteImageData avail T data m2 disk).status = .ok →
        ((w.WriteImageInfo m1).WriteImageData avail T data m2 disk).disk =
          (w.filename, { nim with
            data := some (data.take (mulSizeT nim.nvox (toSizeT nim.nbyper))) })
            :: disk)) ∧
    (NIFTIWriter.construct fname info0).WriteImageData avail T data m2 disk =
      ((NIFTIWriter.construct fname info0).WriteImageInfo m2).WriteImageData avail T data m2
        disk := by
  refine ⟨?_, ⟨_, WriteImageInfo_nim w m1, rfl, rfl, ?_, ?_⟩, ?_⟩
  · rw [WriteImageData_built avail _ _ T data m2 disk (WriteImageInfo_nim w m1),
      WriteImageData_built avail _ _ T data m1 disk (WriteImageInfo_nim w m1)]
  · rw [WriteImageData_built avail _ _ T data m2 disk (WriteImageInfo_nim w m1)]
    dsimp only
    split_ifs <;> simp
  · rw [WriteImageData_built avail _ _ T data m2 disk (WriteImageInfo_nim w m1)]
    dsimp only
    split_ifs <;> simp [nifti_image_write]
  · exact WriteImageData_empty avail _ T data m2 disk rfl

end i3d
